import Mathlib

/-!
Shallow embedding of `blender-mesh-to-json.py` (the `MeshToJSON.execute`
operator): the mesh data read from the host, the face/loop flattening pass,
the vertex/group pass, the bounding-box fold, the conditional nulling of
optional field groups, and the framed emission of the serialized document.

Numeric values are modelled with `ℚ` (the Python floats of the source carry
no overflow/rounding logic that the claims depend on); the bounding-box
accumulators live in `WithTop ℚ` / `WithBot ℚ` because the source initializes
them with `float('inf')` / `-float('inf')`.
-/

/-- A 3-component vector, as Blender's `Vector` / `vert.co` / `face.normal`. -/
structure Vec3 where
  x : ℚ
  y : ℚ
  z : ℚ
  deriving DecidableEq, Repr

/-- The three affine rows of the 4×4 `mesh.matrix_world`.  Blender's
`matrix * vector` with a 3-vector pads the vector with w = 1 and returns the
first three components of the 4-vector product, so only rows 0–2 matter. -/
structure Mat4 where
  m00 : ℚ
  m01 : ℚ
  m02 : ℚ
  m03 : ℚ
  m10 : ℚ
  m11 : ℚ
  m12 : ℚ
  m13 : ℚ
  m20 : ℚ
  m21 : ℚ
  m22 : ℚ
  m23 : ℚ
  deriving DecidableEq, Repr

/-- `mesh.matrix_world * corner` (source line 140): affine application of the
world transform to a local-space point. -/
def applyMat (m : Mat4) (v : Vec3) : Vec3 :=
  ⟨m.m00 * v.x + m.m01 * v.y + m.m02 * v.z + m.m03,
   m.m10 * v.x + m.m11 * v.y + m.m12 * v.z + m.m13,
   m.m20 * v.x + m.m21 * v.y + m.m22 * v.z + m.m23⟩

/-- One polygon of `mesh.data.polygons`: its `vertices` (vertex indices),
its `loop_indices` (global loop indices, parallel to `vertices`), and its
face `normal`. -/
structure Face where
  vertices : List Nat
  loop_indices : List Nat
  normal : Vec3
  deriving DecidableEq, Repr

/-- One entry of `vert.groups`: a vertex-group index and its weight. -/
structure GroupEntry where
  group : Nat
  weight : ℚ
  deriving DecidableEq, Repr

/-- One entry of `mesh.data.vertices`: its position `co` and its `groups`. -/
structure Vertex where
  co : Vec3
  groups : List GroupEntry
  deriving DecidableEq, Repr

/-- The read-only view of the host mesh object that `execute` consumes.
`uv_texture_image_name` is `some n` exactly when `mesh.data.uv_textures`
is truthy, with `n = uv_textures.active.data[0].image.name`;
`parent_armature_name` is `some n` exactly when `mesh.parent != None and
mesh.parent.type == 'ARMATURE'`, with `n = mesh.parent.name`;
`uv_loops` is `mesh.data.uv_layers.active.data` (the per-loop `uv` pairs);
`bound_box` is `mesh.bound_box`. -/
structure Mesh where
  polygons : List Face
  vertices : List Vertex
  uv_loops : List (ℚ × ℚ)
  uv_texture_image_name : Option String
  parent_armature_name : Option String
  matrix_world : Mat4
  bound_box : List Vec3
  name : String
  deriving DecidableEq, Repr

/-- Last index of `c` in `l`, or `-1` when absent: Python's `str.rfind`. -/
def rfindChar (c : Char) : List Char → Int
  | [] => -1
  | a :: rest =>
    let r := rfindChar c rest
    if 0 ≤ r then r + 1 else if a = c then 0 else -1

/-- Python's `os.path.splitext` (posix, `sep = '/'`, `extsep = '.'`) on the
characters of the path: split at the last dot that lies after the last slash,
unless every character between the slash and that dot is itself a dot
(so a leading-dot filename like `.bashrc` keeps its dot). -/
def splitextChars (p : List Char) : List Char × List Char :=
  let sepIndex := rfindChar '/' p
  let dotIndex := rfindChar '.' p
  if sepIndex < dotIndex then
    if (((p.drop (sepIndex + 1).toNat).take (dotIndex.toNat - (sepIndex + 1).toNat)).all
        (fun a => a = '.')) then
      (p, [])
    else
      (p.take dotIndex.toNat, p.drop dotIndex.toNat)
  else
    (p, [])

/-- `os.path.splitext(texture_name)[0]` (source line 62): the image name with
its trailing extension removed. -/
def stripExt (s : String) : String := String.mk (splitextChars s.data).1

/-- The extension part `os.path.splitext(texture_name)[1]`. -/
def extPart (s : String) : List Char := (splitextChars s.data).2

/-- The five arrays populated by the face loop of source lines 67–88. -/
structure FlattenOut where
  num_vertices_in_each_face : List Nat
  vertex_position_indices : List Nat
  vertex_normal_indices : List Nat
  vertex_uv_indices : List Nat
  vertex_normals : List ℚ
  deriving DecidableEq, Repr

/-- `face.loop_indices[i]` for `i in range(len(face.vertices))`
(source line 81; out-of-range reads, impossible in Blender where the two
sequences are parallel, default to 0 to keep the embedding total). -/
def faceUVIdx (face : Face) : List Nat :=
  (List.range face.vertices.length).map (fun i => face.loop_indices.getD i 0)

/-- The face loop of source lines 67–88, with `index` the running face
counter (`index = 0` before the loop, `index += 1` at the end of each
iteration).  Each per-face contribution: the loop count is appended to
`num_vertices_in_each_face`; per loop, the vertex index goes to
`vertex_position_indices`, the current `index` to `vertex_normal_indices`,
and (if a texture is active) `face.loop_indices[i]` to `vertex_uv_indices`;
then the face normal's x, y, z go to `vertex_normals`. -/
def flattenFrom (hasTex : Bool) : Nat → List Face → FlattenOut
  | _, [] => ⟨[], [], [], [], []⟩
  | index, face :: rest =>
    let r := flattenFrom hasTex (index + 1) rest
    { num_vertices_in_each_face := face.vertices.length :: r.num_vertices_in_each_face
      vertex_position_indices := face.vertices ++ r.vertex_position_indices
      vertex_normal_indices :=
        List.replicate face.vertices.length index ++ r.vertex_normal_indices
      vertex_uv_indices := (if hasTex then faceUVIdx face else []) ++ r.vertex_uv_indices
      vertex_normals :=
        face.normal.x :: face.normal.y :: face.normal.z :: r.vertex_normals }

/-- The whole face loop, starting from `index = 0`. -/
def flattenFaces (hasTex : Bool) (faces : List Face) : FlattenOut :=
  flattenFrom hasTex 0 faces

/-- The bounding-box accumulators of source lines 131–147:
`lower_left_front` starts at `(+inf, +inf, +inf)` (so `⊤` in `WithTop ℚ`) and
`upper_right_back` at `(-inf, -inf, -inf)` (so `⊥` in `WithBot ℚ`). -/
structure BoundingBox where
  lower_left_front_x : WithTop ℚ
  lower_left_front_y : WithTop ℚ
  lower_left_front_z : WithTop ℚ
  upper_right_back_x : WithBot ℚ
  upper_right_back_y : WithBot ℚ
  upper_right_back_z : WithBot ℚ
  deriving DecidableEq, Repr

/-- One iteration of the corner loop (source lines 134–147): transform the
corner to world space, then fold its components into the accumulators with
`min` / `max`. -/
def bboxStep (m : Mat4) (acc : BoundingBox) (corner : Vec3) : BoundingBox :=
  let w := applyMat m corner
  { lower_left_front_x := min acc.lower_left_front_x (w.x : WithTop ℚ)
    lower_left_front_y := min acc.lower_left_front_y (w.y : WithTop ℚ)
    lower_left_front_z := min acc.lower_left_front_z (w.z : WithTop ℚ)
    upper_right_back_x := max acc.upper_right_back_x (w.x : WithBot ℚ)
    upper_right_back_y := max acc.upper_right_back_y (w.y : WithBot ℚ)
    upper_right_back_z := max acc.upper_right_back_z (w.z : WithBot ℚ) }

/-- The corner loop over `mesh.bound_box` (source lines 131–150). -/
def computeBBox (m : Mat4) (corners : List Vec3) : BoundingBox :=
  corners.foldl (bboxStep m) ⟨⊤, ⊤, ⊤, ⊥, ⊥, ⊥⟩

/-- The assembled `mesh_json` document after the nulling passes of source
lines 114–121 (optional arrays are `none` when nulled out). -/
structure MeshJSON where
  vertex_positions : List ℚ
  num_vertices_in_each_face : List Nat
  vertex_position_indices : List Nat
  vertex_normals : List ℚ
  vertex_normal_indices : List Nat
  vertex_uvs : Option (List ℚ)
  vertex_uv_indices : Option (List Nat)
  texture_name : Option String
  armature_name : Option String
  vertex_group_indices : Option (List Nat)
  vertex_group_weights : Option (List ℚ)
  num_groups_for_each_vertex : Option (List Nat)
  bounding_box : BoundingBox
  deriving DecidableEq, Repr

/-- `MeshToJSON.execute` (source lines 33–150), up to the assembled document:
armature/texture names, the face loop, the vertex loop (positions, group
indices/weights for every vertex, group counts only when an armature parent
exists), the UV loop, the nulling of absent optional field groups, and the
bounding-box fold. -/
def execute (mesh : Mesh) : MeshJSON :=
  let armature_name := mesh.parent_armature_name
  let texture_name := mesh.uv_texture_image_name.map stripExt
  let hasTex := mesh.uv_texture_image_name.isSome
  let f := flattenFaces hasTex mesh.polygons
  let vertex_positions := (mesh.vertices.map (fun v => [v.co.x, v.co.y, v.co.z])).flatten
  let group_indices := (mesh.vertices.map (fun v => v.groups.map (fun g => g.group))).flatten
  let group_weights := (mesh.vertices.map (fun v => v.groups.map (fun g => g.weight))).flatten
  let num_groups :=
    if armature_name = none then [] else mesh.vertices.map (fun v => v.groups.length)
  let vertex_uvs := if hasTex then (mesh.uv_loops.map (fun p => [p.1, p.2])).flatten else []
  { vertex_positions := vertex_positions
    num_vertices_in_each_face := f.num_vertices_in_each_face
    vertex_position_indices := f.vertex_position_indices
    vertex_normals := f.vertex_normals
    vertex_normal_indices := f.vertex_normal_indices
    vertex_uvs := if texture_name = none then none else some vertex_uvs
    vertex_uv_indices := if texture_name = none then none else some f.vertex_uv_indices
    texture_name := texture_name
    armature_name := armature_name
    vertex_group_indices := if armature_name = none then none else some group_indices
    vertex_group_weights := if armature_name = none then none else some group_weights
    num_groups_for_each_vertex := if armature_name = none then none else some num_groups
    bounding_box := computeBBox mesh.matrix_world mesh.bound_box }

/-- `"START_MESH_JSON " + bpy.data.filepath + " " + mesh.name` (line 155). -/
def startMarker (path name : String) : String :=
  "START_MESH_JSON " ++ path ++ " " ++ name

/-- `"END_MESH_JSON " + bpy.data.filepath + " " + mesh.name` (line 157). -/
def endMarker (path name : String) : String :=
  "END_MESH_JSON " ++ path ++ " " ++ name

/-- The lines printed by source lines 155–157, given the outcome `ser` of
`json.dumps(mesh_json)` (`some s` when serialization yields `s`, `none` when
it raises).  The START line is printed by line 155 before line 156 evaluates
`json.dumps`, so a raising `dumps` aborts the export with the START line
already emitted and neither payload nor END line following it. -/
def emittedLines (path name : String) (ser : Option String) : List String :=
  match ser with
  | none => [startMarker path name]
  | some s => [startMarker path name, s, endMarker path name]

/-- Blender's canonical loop layout: face `j`'s `loop_indices` are the
consecutive loop offsets starting where the previous face's loops ended. -/
def canonicalLoops : Nat → List Face → Prop
  | _, [] => True
  | start, face :: rest =>
    face.loop_indices = (List.range face.vertices.length).map (fun i => start + i) ∧
      canonicalLoops (start + face.vertices.length) rest

/-! ### Concrete meshes used as witnesses and counterexamples -/

/-- The identity world transform. -/
def idMat : Mat4 := ⟨1, 0, 0, 0, 0, 1, 0, 0, 0, 0, 1, 0⟩

/-- A single textured quad face with the canonical loop layout. -/
def quadFaceTex : Face := ⟨[0, 1, 2, 3], [0, 1, 2, 3], ⟨0, 0, 1⟩⟩

/-- A one-quad mesh with an active texture image named `wood.png`. -/
def meshTex : Mesh :=
  ⟨[quadFaceTex],
   [⟨⟨0, 0, 0⟩, []⟩, ⟨⟨1, 0, 0⟩, []⟩, ⟨⟨1, 1, 0⟩, []⟩, ⟨⟨0, 1, 0⟩, []⟩],
   [(0, 0), (1, 0), (1, 1), (0, 1)],
   some "wood.png", none, idMat, [], "Plane"⟩

/-- A mesh mixing a triangle and a quad (non-uniform topology). -/
def meshMixed : Mesh :=
  ⟨[⟨[0, 1, 2], [0, 1, 2], ⟨0, 0, 1⟩⟩, ⟨[0, 1, 2, 3], [3, 4, 5, 6], ⟨0, 0, 1⟩⟩],
   [⟨⟨0, 0, 0⟩, []⟩, ⟨⟨1, 0, 0⟩, []⟩, ⟨⟨1, 1, 0⟩, []⟩, ⟨⟨0, 1, 0⟩, []⟩],
   [], none, none, idMat, [], "Mixed"⟩

/-- A skinned mesh: armature parent, two vertices with 2 resp. 1 groups. -/
def meshSkin : Mesh :=
  ⟨[],
   [⟨⟨0, 0, 0⟩, [⟨0, 1/2⟩, ⟨2, 1/2⟩]⟩, ⟨⟨1, 0, 0⟩, [⟨1, 1⟩]⟩],
   [], none, some "Armature", idMat, [], "Skinned"⟩

/-- Seven of the eight corners of the unit cube (missing `(1,1,1)`). -/
def corners7 : List Vec3 :=
  [⟨0, 0, 0⟩, ⟨0, 0, 1⟩, ⟨0, 1, 0⟩, ⟨0, 1, 1⟩, ⟨1, 0, 0⟩, ⟨1, 0, 1⟩, ⟨1, 1, 0⟩]

/-- A mesh whose `bound_box` has only 7 corners. -/
def mesh7 : Mesh := ⟨[], [], [], none, none, idMat, corners7, "Seven"⟩

/-! ### Lemmas about the face loop -/

theorem flattenFrom_num (hasTex : Bool) (i : Nat) (faces : List Face) :
    (flattenFrom hasTex i faces).num_vertices_in_each_face
      = faces.map (fun f => f.vertices.length) := by
  induction faces generalizing i with
  | nil => rfl
  | cons face rest ih => simp [flattenFrom, ih]

theorem flattenFrom_pos (hasTex : Bool) (i : Nat) (faces : List Face) :
    (flattenFrom hasTex i faces).vertex_position_indices
      = (faces.map Face.vertices).flatten := by
  induction faces generalizing i with
  | nil => rfl
  | cons face rest ih => simp [flattenFrom, ih]

theorem flattenFrom_pos_len (hasTex : Bool) (i : Nat) (faces : List Face) :
    ((flattenFrom hasTex i faces).vertex_position_indices).length
      = (faces.map (fun f => f.vertices.length)).sum := by
  induction faces generalizing i with
  | nil => rfl
  | cons face rest ih => simp [flattenFrom, ih]

theorem flattenFrom_nrmIdx (hasTex : Bool) (i : Nat) (faces : List Face) :
    (flattenFrom hasTex i faces).vertex_normal_indices
      = ((faces.enumFrom i).map (fun p => List.replicate p.2.vertices.length p.1)).flatten := by
  induction faces generalizing i with
  | nil => rfl
  | cons face rest ih => simp [flattenFrom, ih]

theorem flattenFrom_nrmIdx_len (hasTex : Bool) (i : Nat) (faces : List Face) :
    ((flattenFrom hasTex i faces).vertex_normal_indices).length
      = (faces.map (fun f => f.vertices.length)).sum := by
  induction faces generalizing i with
  | nil => rfl
  | cons face rest ih => simp [flattenFrom, ih]

theorem flattenFrom_normals (hasTex : Bool) (i : Nat) (faces : List Face) :
    (flattenFrom hasTex i faces).vertex_normals
      = (faces.map (fun f => [f.normal.x, f.normal.y, f.normal.z])).flatten := by
  induction faces generalizing i with
  | nil => rfl
  | cons face rest ih => simp [flattenFrom, ih]

theorem flattenFrom_normals_len (hasTex : Bool) (i : Nat) (faces : List Face) :
    ((flattenFrom hasTex i faces).vertex_normals).length = 3 * faces.length := by
  induction faces generalizing i with
  | nil => rfl
  | cons face rest ih =>
    simp only [flattenFrom, List.length_cons, ih, List.length_cons]
    omega

theorem flattenFrom_uv_len (i : Nat) (faces : List Face) :
    ((flattenFrom true i faces).vertex_uv_indices).length
      = (faces.map (fun f => f.vertices.length)).sum := by
  induction faces generalizing i with
  | nil => rfl
  | cons face rest ih => simp [flattenFrom, ih, faceUVIdx]

theorem flattenFrom_uv_nil (i : Nat) (faces : List Face) :
    (flattenFrom false i faces).vertex_uv_indices = [] := by
  induction faces generalizing i with
  | nil => rfl
  | cons face rest ih => simp [flattenFrom, ih]

theorem faceUVIdx_canonical (face : Face) (start : Nat)
    (h : face.loop_indices = (List.range face.vertices.length).map (fun i => start + i)) :
    faceUVIdx face = List.range' start face.vertices.length := by
  unfold faceUVIdx
  rw [h]
  have hmap : (List.range face.vertices.length).map
      (fun i => (((List.range face.vertices.length).map (fun j => start + j)).getD i 0))
      = (List.range face.vertices.length).map (fun i => start + i) := by
    apply List.map_congr_left
    intro a ha
    have halt : a < face.vertices.length := List.mem_range.mp ha
    simp [List.getD_eq_getElem?_getD, List.getElem?_range halt]
  rw [hmap, show (fun i => start + i) = (start + ·) from rfl, List.range_eq_range',
    List.map_add_range', Nat.add_zero]

theorem flattenFrom_uv_canonical (faces : List Face) (i start : Nat)
    (h : canonicalLoops start faces) :
    (flattenFrom true i faces).vertex_uv_indices
      = List.range' start ((faces.map (fun f => f.vertices.length)).sum) := by
  induction faces generalizing i start with
  | nil => rfl
  | cons face rest ih =>
    obtain ⟨h1, h2⟩ := h
    simp only [flattenFrom, List.map_cons, List.sum_cons]
    rw [if_pos trivial,
      faceUVIdx_canonical face start h1, ih (i + 1) (start + face.vertices.length) h2,
      Nat.add_comm face.vertices.length ((rest.map (fun f => f.vertices.length)).sum),
      List.range'_append_1]

/-! ### Claim theorems -/

/-- C1: for every mesh, the exported document satisfies
`sum(numVerticesInEachFace) == len(vertexPositionIndices) ==
len(vertexNormalIndices)`, and this common length also equals
`len(vertexUVIndices)` whenever a texture is active. -/
theorem mesh_index_consistency (mesh : Mesh) :
    ((execute mesh).num_vertices_in_each_face).sum
        = ((execute mesh).vertex_position_indices).length
      ∧ ((execute mesh).vertex_position_indices).length
        = ((execute mesh).vertex_normal_indices).length
      ∧ ∀ l, (execute mesh).vertex_uv_indices = some l →
          l.length = ((execute mesh).vertex_position_indices).length := by
  refine ⟨?_, ?_, ?_⟩
  · simp only [execute, flattenFaces]
    rw [flattenFrom_num, flattenFrom_pos_len]
  · simp only [execute, flattenFaces]
    rw [flattenFrom_pos_len, flattenFrom_nrmIdx_len]
  · intro l hl
    rcases htex : mesh.uv_texture_image_name with _ | n
    · simp [execute, htex] at hl
    · simp [execute, flattenFaces, htex] at hl
      subst hl
      simp only [execute, flattenFaces, htex, Option.isSome_some]
      rw [flattenFrom_uv_len, flattenFrom_pos_len]

/-- C1 witness: on the concrete one-quad textured mesh `meshTex`, the UV
index list `[0, 1, 2, 3]` is present and its length matches the position
index count. -/
theorem mesh_index_consistency_witness :
    (execute meshTex).vertex_uv_indices = some [0, 1, 2, 3]
      ∧ ([0, 1, 2, 3] : List Nat).length
        = ((execute meshTex).vertex_position_indices).length :=
  ⟨by decide, (mesh_index_consistency meshTex).2.2 [0, 1, 2, 3] (by decide)⟩

/-- C2: for every mesh, the flattener appends exactly the x, y, z components
of each face's normal, in that order, once per face (so
`len(vertexNormals) = 3 * len(faces)`), and every loop of face `i` carries
normal index `i` (the flattened index list is the concatenation, over the
enumerated faces, of face `i`'s index repeated once per loop). -/
theorem normals_once_per_face_and_indices (mesh : Mesh) :
    (execute mesh).vertex_normals
        = (mesh.polygons.map (fun f => [f.normal.x, f.normal.y, f.normal.z])).flatten
      ∧ ((execute mesh).vertex_normals).length = 3 * mesh.polygons.length
      ∧ (execute mesh).vertex_normal_indices
        = ((mesh.polygons.enum).map
            (fun p => List.replicate p.2.vertices.length p.1)).flatten := by
  refine ⟨?_, ?_, ?_⟩
  · simp only [execute, flattenFaces]
    rw [flattenFrom_normals]
  · simp only [execute, flattenFaces]
    rw [flattenFrom_normals_len]
  · simp only [execute, flattenFaces, List.enum]
    rw [flattenFrom_nrmIdx]

/-- C3: whenever a texture is active and the faces carry Blender's canonical
consecutive loop layout, the exported `vertexUVIndices` is exactly the
sequence `0, 1, ..., sum(numVerticesInEachFace) - 1` in order. -/
theorem uv_indices_are_loop_offsets (mesh : Mesh)
    (htex : mesh.uv_texture_image_name.isSome = true)
    (hcanon : canonicalLoops 0 mesh.polygons) :
    (execute mesh).vertex_uv_indices
      = some (List.range (((execute mesh).num_vertices_in_each_face).sum)) := by
  rcases hn : mesh.uv_texture_image_name with _ | n
  · rw [hn] at htex; cases htex
  · have hne : (Option.map stripExt (some n) : Option String) ≠ none := by simp
    simp only [execute, flattenFaces, hn, Option.isSome_some]
    rw [flattenFrom_uv_canonical mesh.polygons 0 0 hcanon, flattenFrom_num,
      List.range_eq_range', if_neg hne]

/-- C3 witness: the concrete textured quad mesh `meshTex` has the canonical
loop layout, and its exported UV indices are `range 4 = [0, 1, 2, 3]`. -/
theorem uv_indices_are_loop_offsets_witness :
    (execute meshTex).vertex_uv_indices
      = some (List.range (((execute meshTex).num_vertices_in_each_face).sum)) :=
  uv_indices_are_loop_offsets meshTex (by decide)
    (by unfold canonicalLoops; exact ⟨by decide, trivial⟩)

/-- C4: for every mesh, the three group arrays are null exactly when
`parentSkeletonName` (the armature parent) is absent, and the two UV arrays
are null exactly when `activeTextureName` is absent; each optional field
group is entirely present or entirely null, never partially populated. -/
theorem optional_groups_all_or_nothing (mesh : Mesh) :
    (execute mesh).armature_name = mesh.parent_armature_name
      ∧ ((execute mesh).texture_name).isSome = (mesh.uv_texture_image_name).isSome
      ∧ ((execute mesh).vertex_group_indices).isSome = (mesh.parent_armature_name).isSome
      ∧ ((execute mesh).vertex_group_weights).isSome = (mesh.parent_armature_name).isSome
      ∧ ((execute mesh).num_groups_for_each_vertex).isSome
        = (mesh.parent_armature_name).isSome
      ∧ ((execute mesh).vertex_uvs).isSome = (mesh.uv_texture_image_name).isSome
      ∧ ((execute mesh).vertex_uv_indices).isSome = (mesh.uv_texture_image_name).isSome := by
  rcases h1 : mesh.parent_armature_name with _ | s <;>
    rcases h2 : mesh.uv_texture_image_name with _ | n <;>
      simp [execute, h1, h2]

/-- C5: for every mesh with an armature parent, the group output is a CSR
encoding in vertex source order: the per-vertex (group, weight) pairs appear
consecutively and unmodified in the two flat arrays, the per-vertex counts
are listed in `numGroupsForEachVertex`, and
`sum(numGroupsForEachVertex) == len(vertexGroupIndices) ==
len(vertexGroupWeights)`. -/
theorem group_csr_encoding (mesh : Mesh) (s : String)
    (h : mesh.parent_armature_name = some s) :
    (execute mesh).vertex_group_indices
        = some ((mesh.vertices.map (fun v => v.groups.map (fun g => g.group))).flatten)
      ∧ (execute mesh).vertex_group_weights
        = some ((mesh.vertices.map (fun v => v.groups.map (fun g => g.weight))).flatten)
      ∧ (execute mesh).num_groups_for_each_vertex
        = some (mesh.vertices.map (fun v => v.groups.length))
      ∧ (mesh.vertices.map (fun v => v.groups.length)).sum
        = ((mesh.vertices.map (fun v => v.groups.map (fun g => g.group))).flatten).length
      ∧ ((mesh.vertices.map (fun v => v.groups.map (fun g => g.group))).flatten).length
        = ((mesh.vertices.map (fun v => v.groups.map (fun g => g.weight))).flatten).length := by
  refine ⟨by simp [execute, h], by simp [execute, h], by simp [execute, h], ?_, ?_⟩ <;>
    simp [List.length_flatten, List.map_map, Function.comp_def]

/-- C5 witness: on the concrete skinned mesh `meshSkin`, the group arrays
carry the pairs `(0, 1/2), (2, 1/2)` of vertex 0 followed by `(1, 1)` of
vertex 1, with counts `[2, 1]`. -/
theorem group_csr_encoding_witness :
    (execute meshSkin).vertex_group_indices = some [0, 2, 1]
      ∧ (execute meshSkin).vertex_group_weights = some [1/2, 1/2, 1]
      ∧ (execute meshSkin).num_groups_for_each_vertex = some [2, 1] := by
  have h := group_csr_encoding meshSkin "Armature" rfl
  exact ⟨h.1.trans (by simp [meshSkin]), h.2.1.trans (by simp [meshSkin]),
    h.2.2.1.trans (by simp [meshSkin])⟩

/-- C9 counterexample: on the concrete mixed-topology mesh `meshMixed` (a
triangle followed by a quad), the export does not fail: it silently produces
the index arrays, contradicting the claim that such a mesh fails with
`UnsupportedTopologyError`. -/
theorem mixed_topology_is_exported :
    (execute meshMixed).num_vertices_in_each_face = [3, 4]
      ∧ (execute meshMixed).vertex_position_indices = [0, 1, 2, 0, 1, 2, 3]
      ∧ (execute meshMixed).vertex_normal_indices = [0, 0, 0, 1, 1, 1, 1] := by
  refine ⟨by decide, by decide, by decide⟩

/-- C9 amended: the flattener accepts every face vertex count (mixed
topology included) and always produces the index arrays — each face
contributes its own loop count to `numVerticesInEachFace` and its vertex
indices verbatim to `vertexPositionIndices`; no topology check exists. -/
theorem flattener_accepts_any_topology (mesh : Mesh) :
    (execute mesh).num_vertices_in_each_face
        = mesh.polygons.map (fun f => f.vertices.length)
      ∧ (execute mesh).vertex_position_indices
        = (mesh.polygons.map Face.vertices).flatten := by
  constructor <;> simp only [execute, flattenFaces]
  · rw [flattenFrom_num]
  · rw [flattenFrom_pos]

/-! ### Lemmas about the bounding-box fold -/

theorem foldl_min_le_start {α : Type} [LinearOrder α] :
    ∀ (l : List α) (a : α), l.foldl min a ≤ a
  | [], a => le_refl a
  | x :: t, a => le_trans (foldl_min_le_start t (min a x)) (min_le_left a x)

theorem foldl_min_le_of_mem {α : Type} [LinearOrder α] {l : List α} {b : α}
    (h : b ∈ l) : ∀ a : α, l.foldl min a ≤ b := by
  induction l with
  | nil => cases h
  | cons x t ih =>
    intro a
    rcases List.mem_cons.mp h with rfl | hmem
    · exact le_trans (foldl_min_le_start t (min a b)) (min_le_right a b)
    · exact ih hmem (min a x)

theorem start_le_foldl_max {α : Type} [LinearOrder α] :
    ∀ (l : List α) (a : α), a ≤ l.foldl max a
  | [], a => le_refl a
  | x :: t, a => le_trans (le_max_left a x) (start_le_foldl_max t (max a x))

theorem mem_le_foldl_max {α : Type} [LinearOrder α] {l : List α} {b : α}
    (h : b ∈ l) : ∀ a : α, b ≤ l.foldl max a := by
  induction l with
  | nil => cases h
  | cons x t ih =>
    intro a
    rcases List.mem_cons.mp h with rfl | hmem
    · exact le_trans (le_max_right a b) (start_le_foldl_max t (max a b))
    · exact ih hmem (max a x)

theorem foldl_bbox_llf_x (m : Mat4) (l : List Vec3) (acc : BoundingBox) :
    (l.foldl (bboxStep m) acc).lower_left_front_x
      = (l.map (fun c => ((applyMat m c).x : WithTop ℚ))).foldl min
          acc.lower_left_front_x := by
  induction l generalizing acc with
  | nil => rfl
  | cons c t ih => simp [bboxStep, ih]

theorem foldl_bbox_llf_y (m : Mat4) (l : List Vec3) (acc : BoundingBox) :
    (l.foldl (bboxStep m) acc).lower_left_front_y
      = (l.map (fun c => ((applyMat m c).y : WithTop ℚ))).foldl min
          acc.lower_left_front_y := by
  induction l generalizing acc with
  | nil => rfl
  | cons c t ih => simp [bboxStep, ih]

theorem foldl_bbox_llf_z (m : Mat4) (l : List Vec3) (acc : BoundingBox) :
    (l.foldl (bboxStep m) acc).lower_left_front_z
      = (l.map (fun c => ((applyMat m c).z : WithTop ℚ))).foldl min
          acc.lower_left_front_z := by
  induction l generalizing acc with
  | nil => rfl
  | cons c t ih => simp [bboxStep, ih]

theorem foldl_bbox_urb_x (m : Mat4) (l : List Vec3) (acc : BoundingBox) :
    (l.foldl (bboxStep m) acc).upper_right_back_x
      = (l.map (fun c => ((applyMat m c).x : WithBot ℚ))).foldl max
          acc.upper_right_back_x := by
  induction l generalizing acc with
  | nil => rfl
  | cons c t ih => simp [bboxStep, ih]

theorem foldl_bbox_urb_y (m : Mat4) (l : List Vec3) (acc : BoundingBox) :
    (l.foldl (bboxStep m) acc).upper_right_back_y
      = (l.map (fun c => ((applyMat m c).y : WithBot ℚ))).foldl max
          acc.upper_right_back_y := by
  induction l generalizing acc with
  | nil => rfl
  | cons c t ih => simp [bboxStep, ih]

theorem foldl_bbox_urb_z (m : Mat4) (l : List Vec3) (acc : BoundingBox) :
    (l.foldl (bboxStep m) acc).upper_right_back_z
      = (l.map (fun c => ((applyMat m c).z : WithBot ℚ))).foldl max
          acc.upper_right_back_z := by
  induction l generalizing acc with
  | nil => rfl
  | cons c t ih => simp [bboxStep, ih]

theorem computeBBox_bounds (m : Mat4) {l : List Vec3} {c : Vec3} (hc : c ∈ l) :
    (computeBBox m l).lower_left_front_x ≤ ((applyMat m c).x : WithTop ℚ)
      ∧ (computeBBox m l).lower_left_front_y ≤ ((applyMat m c).y : WithTop ℚ)
      ∧ (computeBBox m l).lower_left_front_z ≤ ((applyMat m c).z : WithTop ℚ)
      ∧ ((applyMat m c).x : WithBot ℚ) ≤ (computeBBox m l).upper_right_back_x
      ∧ ((applyMat m c).y : WithBot ℚ) ≤ (computeBBox m l).upper_right_back_y
      ∧ ((applyMat m c).z : WithBot ℚ) ≤ (computeBBox m l).upper_right_back_z := by
  unfold computeBBox
  refine ⟨?_, ?_, ?_, ?_, ?_, ?_⟩
  · rw [foldl_bbox_llf_x]
    exact foldl_min_le_of_mem
      (List.mem_map_of_mem (fun c => ((applyMat m c).x : WithTop ℚ)) hc) _
  · rw [foldl_bbox_llf_y]
    exact foldl_min_le_of_mem
      (List.mem_map_of_mem (fun c => ((applyMat m c).y : WithTop ℚ)) hc) _
  · rw [foldl_bbox_llf_z]
    exact foldl_min_le_of_mem
      (List.mem_map_of_mem (fun c => ((applyMat m c).z : WithTop ℚ)) hc) _
  · rw [foldl_bbox_urb_x]
    exact mem_le_foldl_max
      (List.mem_map_of_mem (fun c => ((applyMat m c).x : WithBot ℚ)) hc) _
  · rw [foldl_bbox_urb_y]
    exact mem_le_foldl_max
      (List.mem_map_of_mem (fun c => ((applyMat m c).y : WithBot ℚ)) hc) _
  · rw [foldl_bbox_urb_z]
    exact mem_le_foldl_max
      (List.mem_map_of_mem (fun c => ((applyMat m c).z : WithBot ℚ)) hc) _

theorem boundingBox_ext {b₁ b₂ : BoundingBox}
    (h1 : b₁.lower_left_front_x = b₂.lower_left_front_x)
    (h2 : b₁.lower_left_front_y = b₂.lower_left_front_y)
    (h3 : b₁.lower_left_front_z = b₂.lower_left_front_z)
    (h4 : b₁.upper_right_back_x = b₂.upper_right_back_x)
    (h5 : b₁.upper_right_back_y = b₂.upper_right_back_y)
    (h6 : b₁.upper_right_back_z = b₂.upper_right_back_z) : b₁ = b₂ := by
  cases b₁
  cases b₂
  simp_all

theorem computeBBox_perm (m : Mat4) {l₁ l₂ : List Vec3} (h : l₁.Perm l₂) :
    computeBBox m l₁ = computeBBox m l₂ := by
  refine boundingBox_ext ?_ ?_ ?_ ?_ ?_ ?_
  · rw [computeBBox, computeBBox, foldl_bbox_llf_x, foldl_bbox_llf_x]
    exact (h.map _).foldl_eq _
  · rw [computeBBox, computeBBox, foldl_bbox_llf_y, foldl_bbox_llf_y]
    exact (h.map _).foldl_eq _
  · rw [computeBBox, computeBBox, foldl_bbox_llf_z, foldl_bbox_llf_z]
    exact (h.map _).foldl_eq _
  · rw [computeBBox, computeBBox, foldl_bbox_urb_x, foldl_bbox_urb_x]
    exact (h.map _).foldl_eq _
  · rw [computeBBox, computeBBox, foldl_bbox_urb_y, foldl_bbox_urb_y]
    exact (h.map _).foldl_eq _
  · rw [computeBBox, computeBBox, foldl_bbox_urb_z, foldl_bbox_urb_z]
    exact (h.map _).foldl_eq _

/-- C6: for every mesh, the exported bounding box is the min/max fold of the
world-transformed corners starting from `(+inf, +inf, +inf)` and
`(-inf, -inf, -inf)`; consequently every world-space corner lies between
`lowerLeftFront` and `upperRightBack` componentwise, and the result is
independent of the corner traversal order. -/
theorem bounding_box_min_max_fold (mesh : Mesh) :
    (execute mesh).bounding_box = computeBBox mesh.matrix_world mesh.bound_box
      ∧ (∀ c ∈ mesh.bound_box,
          ((execute mesh).bounding_box).lower_left_front_x
              ≤ ((applyMat mesh.matrix_world c).x : WithTop ℚ)
            ∧ ((execute mesh).bounding_box).lower_left_front_y
              ≤ ((applyMat mesh.matrix_world c).y : WithTop ℚ)
            ∧ ((execute mesh).bounding_box).lower_left_front_z
              ≤ ((applyMat mesh.matrix_world c).z : WithTop ℚ)
            ∧ ((applyMat mesh.matrix_world c).x : WithBot ℚ)
              ≤ ((execute mesh).bounding_box).upper_right_back_x
            ∧ ((applyMat mesh.matrix_world c).y : WithBot ℚ)
              ≤ ((execute mesh).bounding_box).upper_right_back_y
            ∧ ((applyMat mesh.matrix_world c).z : WithBot ℚ)
              ≤ ((execute mesh).bounding_box).upper_right_back_z)
      ∧ ∀ l : List Vec3, l.Perm mesh.bound_box →
          computeBBox mesh.matrix_world l
            = computeBBox mesh.matrix_world mesh.bound_box := by
  exact ⟨rfl, fun c hc => computeBBox_bounds mesh.matrix_world hc,
    fun l hl => computeBBox_perm mesh.matrix_world hl⟩

/-- C6 witness: on the 7-corner mesh `mesh7`, the exported lower bound is
below the world position of corner `(0,0,0)`, and folding the corners with
the first two swapped yields the same bounding box. -/
theorem bounding_box_min_max_fold_witness :
    ((execute mesh7).bounding_box).lower_left_front_x
        ≤ ((applyMat mesh7.matrix_world ⟨0, 0, 0⟩).x : WithTop ℚ)
      ∧ computeBBox mesh7.matrix_world
          [⟨0, 0, 1⟩, ⟨0, 0, 0⟩, ⟨0, 1, 0⟩, ⟨0, 1, 1⟩, ⟨1, 0, 0⟩, ⟨1, 0, 1⟩, ⟨1, 1, 0⟩]
        = computeBBox mesh7.matrix_world mesh7.bound_box :=
  ⟨((bounding_box_min_max_fold mesh7).2.1 ⟨0, 0, 0⟩ (by decide)).1,
   (bounding_box_min_max_fold mesh7).2.2 _ (by decide)⟩

/-- C8 counterexample: the 7-corner mesh `mesh7` does not fail — `execute`
produces a bounding box from the corners that are present, contradicting the
claim that a corner count other than 8 aborts with `MalformedGeometryError`
(no such check or error exists in the code). -/
theorem seven_corner_mesh_is_exported :
    mesh7.bound_box.length = 7
      ∧ (execute mesh7).bounding_box
        = ⟨((0 : ℚ) : WithTop ℚ), ((0 : ℚ) : WithTop ℚ), ((0 : ℚ) : WithTop ℚ),
           ((1 : ℚ) : WithBot ℚ), ((1 : ℚ) : WithBot ℚ), ((1 : ℚ) : WithBot ℚ)⟩ := by
  constructor
  · rfl
  · show computeBBox mesh7.matrix_world mesh7.bound_box = _
    norm_num [computeBBox, mesh7, corners7, idMat, bboxStep, applyMat, min_def, max_def]

/-- C8 amended: the code performs no bounding-corner count check; for any
corner count (8 or not) the export succeeds and folds the bounding box from
whichever corners are present, each of which it bounds componentwise. -/
theorem bounding_box_from_present_corners (mesh : Mesh)
    (hcount : mesh.bound_box.length ≠ 8) :
    ∀ c ∈ mesh.bound_box,
      ((execute mesh).bounding_box).lower_left_front_x
          ≤ ((applyMat mesh.matrix_world c).x : WithTop ℚ)
        ∧ ((execute mesh).bounding_box).lower_left_front_y
          ≤ ((applyMat mesh.matrix_world c).y : WithTop ℚ)
        ∧ ((execute mesh).bounding_box).lower_left_front_z
          ≤ ((applyMat mesh.matrix_world c).z : WithTop ℚ)
        ∧ ((applyMat mesh.matrix_world c).x : WithBot ℚ)
          ≤ ((execute mesh).bounding_box).upper_right_back_x
        ∧ ((applyMat mesh.matrix_world c).y : WithBot ℚ)
          ≤ ((execute mesh).bounding_box).upper_right_back_y
        ∧ ((applyMat mesh.matrix_world c).z : WithBot ℚ)
          ≤ ((execute mesh).bounding_box).upper_right_back_z :=
  fun _c hc => computeBBox_bounds mesh.matrix_world hc

/-- C8 amended witness: applied to the 7-corner mesh `mesh7` and its corner
`(1,1,0)`. -/
theorem bounding_box_from_present_corners_witness :
    ((execute mesh7).bounding_box).lower_left_front_x
        ≤ ((applyMat mesh7.matrix_world ⟨1, 1, 0⟩).x : WithTop ℚ)
      ∧ ((execute mesh7).bounding_box).lower_left_front_y
        ≤ ((applyMat mesh7.matrix_world ⟨1, 1, 0⟩).y : WithTop ℚ)
      ∧ ((execute mesh7).bounding_box).lower_left_front_z
        ≤ ((applyMat mesh7.matrix_world ⟨1, 1, 0⟩).z : WithTop ℚ)
      ∧ ((applyMat mesh7.matrix_world ⟨1, 1, 0⟩).x : WithBot ℚ)
        ≤ ((execute mesh7).bounding_box).upper_right_back_x
      ∧ ((applyMat mesh7.matrix_world ⟨1, 1, 0⟩).y : WithBot ℚ)
        ≤ ((execute mesh7).bounding_box).upper_right_back_y
      ∧ ((applyMat mesh7.matrix_world ⟨1, 1, 0⟩).z : WithBot ℚ)
        ≤ ((execute mesh7).bounding_box).upper_right_back_z :=
  bounding_box_from_present_corners mesh7 (by decide) ⟨1, 1, 0⟩ (by decide)

/-! ### Lemmas about `rfindChar` and `splitextChars` -/

theorem rfindChar_ge_neg_one (c : Char) (l : List Char) : -1 ≤ rfindChar c l := by
  induction l with
  | nil => simp [rfindChar]
  | cons a t ih =>
    simp only [rfindChar]
    split
    · omega
    · split <;> omega

theorem rfindChar_lt_length (c : Char) (l : List Char) :
    rfindChar c l < (l.length : Int) := by
  induction l with
  | nil => simp [rfindChar]
  | cons a t ih =>
    simp only [rfindChar, List.length_cons]
    split
    · push_cast
      omega
    · split <;> (push_cast; omega)

theorem rfindChar_getElem (c : Char) (l : List Char) (h : 0 ≤ rfindChar c l) :
    l[(rfindChar c l).toNat]? = some c := by
  induction l with
  | nil => simp [rfindChar] at h
  | cons a t ih =>
    simp only [rfindChar] at h ⊢
    by_cases h0 : 0 ≤ rfindChar c t
    · rw [if_pos h0]
      have htn : ((rfindChar c t) + 1).toNat = (rfindChar c t).toNat + 1 := by omega
      rw [htn]
      simpa using ih h0
    · rw [if_neg h0] at h ⊢
      by_cases hac : a = c
      · rw [if_pos hac]
        simp [hac]
      · rw [if_neg hac] at h
        exact absurd h (by norm_num)

theorem splitextChars_fst_append_snd (p : List Char) :
    (splitextChars p).1 ++ (splitextChars p).2 = p := by
  simp only [splitextChars]
  split
  · split
    · simp
    · simp [List.take_append_drop]
  · simp

theorem splitextChars_snd_nil_or_dot (p : List Char) :
    (splitextChars p).2 = [] ∨ ((splitextChars p).2).head? = some '.' := by
  simp only [splitextChars]
  split
  case isTrue hlt =>
    split
    · left
      rfl
    · right
      have hge : 0 ≤ rfindChar '.' p := by
        have := rfindChar_ge_neg_one '/' p
        omega
      have hlen : (rfindChar '.' p).toNat < p.length := by
        have := rfindChar_lt_length '.' p
        omega
      have hsome := rfindChar_getElem '.' p hge
      rw [List.getElem?_eq_getElem hlen] at hsome
      rw [List.drop_eq_getElem_cons hlen, List.head?_cons]
      simpa using hsome
  case isFalse =>
    left
    rfl

/-- C10: whenever a texture is active, the `textureName` written to the
document is the active image name with its trailing file extension removed:
it equals `stripExt` of the name, the stripped part re-appended restores the
original name, and the stripped part is empty or starts with a dot. -/
theorem texture_name_strips_extension (mesh : Mesh) (n : String)
    (h : mesh.uv_texture_image_name = some n) :
    (execute mesh).texture_name = some (stripExt n)
      ∧ (stripExt n).data ++ extPart n = n.data
      ∧ (extPart n = [] ∨ (extPart n).head? = some '.') := by
  refine ⟨by simp [execute, h], ?_, ?_⟩
  · exact splitextChars_fst_append_snd n.data
  · exact splitextChars_snd_nil_or_dot n.data

/-- C10 witness: on the concrete textured mesh `meshTex`, whose active image
is named `wood.png`, the exported texture name evaluates to `wood`. -/
theorem texture_name_strips_extension_witness :
    (execute meshTex).texture_name = some (stripExt "wood.png")
      ∧ stripExt "wood.png" = "wood" :=
  ⟨(texture_name_strips_extension meshTex "wood.png" rfl).1, by decide⟩

/-- C7 counterexample: when `json.dumps` fails (serialization outcome
`none`), the emitted stream still contains the `START_MESH_JSON` marker line
(printed before serialization is attempted) and no `END_MESH_JSON` line —
contradicting the claim that a failed serialization emits no marker at all. -/
theorem start_marker_emitted_on_dumps_failure :
    startMarker "scene.blend" "Cube" ∈ emittedLines "scene.blend" "Cube" none
      ∧ endMarker "scene.blend" "Cube" ∉ emittedLines "scene.blend" "Cube" none := by
  constructor
  · simp [emittedLines]
  · simp only [emittedLines, List.mem_singleton]
    decide

/-- C7 amended: when serialization succeeds the stream is exactly the START
marker, the payload and the END marker — both markers carrying the same
source-path and mesh-name tokens; when serialization fails, exactly the
already-printed START marker line is emitted (a START without a matching
END). -/
theorem framing_lines_shape (path name : String) (ser : Option String) :
    (∀ s, ser = some s →
        emittedLines path name ser = [startMarker path name, s, endMarker path name])
      ∧ (ser = none → emittedLines path name ser = [startMarker path name]) := by
  cases ser <;> simp [emittedLines]

/-- C7 amended witness: instantiated on a successful and on a failing
serialization outcome. -/
theorem framing_lines_shape_witness :
    emittedLines "a.blend" "Cube" (some "{}")
        = [startMarker "a.blend" "Cube", "{}", endMarker "a.blend" "Cube"]
      ∧ emittedLines "b.blend" "Suzanne" none = [startMarker "b.blend" "Suzanne"] :=
  ⟨(framing_lines_shape "a.blend" "Cube" (some "{}")).1 "{}" rfl,
   (framing_lines_shape "b.blend" "Suzanne" none).2 rfl⟩
